import Mathlib

/-!
Verification development for the model-comparison benchmark engine
(`src/evaluator.py`, `src/tokenizers.py`, `src/model_registry.py`,
`src/report_generator.py`).

The Python source is shallowly embedded: Python `str` values become Lean
`String`/`List Char`, Python `float` arithmetic is modelled exactly by `ℚ`
(with Python `round(x, d)` modelled as decimal round-half-to-even and
`int(x)` as truncation toward zero), Python dictionaries with optional keys
become structures with `Option` fields, and the remote Bedrock endpoint is
an oracle function supplied as a parameter.  `json.loads` is embedded as an
executable recursive-descent parser of the JSON grammar accepted by Python's
strict-mode decoder.
-/

/-! ## Generic list/string helpers mirroring Python string primitives -/

/-- Substring test: Python `pat in hay` for strings, on character lists. -/
def listContainsSub (pat : List Char) : List Char → Bool
  | [] => pat.isEmpty
  | c :: t => pat.isPrefixOf (c :: t) || listContainsSub pat t

/-- Python `pat in s` (substring containment). -/
def strContains (s pat : String) : Bool :=
  listContainsSub pat.toList s.toList

/-- Python `s.strip()`: remove leading and trailing whitespace. -/
def pyStrip (s : String) : String :=
  (((s.toList.dropWhile Char.isWhitespace).reverse.dropWhile Char.isWhitespace).reverse).asString

/-- Python `s.lower()` (ASCII case folding suffices for the texts involved). -/
def pyLower (s : String) : String :=
  (s.toList.map Char.toLower).asString

/-- Python `s.startswith(p)`. -/
def strStartsWith (s p : String) : Bool :=
  p.toList.isPrefixOf s.toList

/-- Python `s.endswith(p)`. -/
def strEndsWith (s p : String) : Bool :=
  p.toList.reverse.isPrefixOf s.toList.reverse

/-- Python `s[:n]` (slice by characters). -/
def strTake (s : String) (n : Nat) : String :=
  (s.toList.take n).asString

/-- Python `s[n:]` (slice by characters). -/
def strDrop (s : String) (n : Nat) : String :=
  (s.toList.drop n).asString

/-- Python `s[:-n]`. -/
def strDropRight (s : String) (n : Nat) : String :=
  (s.toList.take (s.toList.length - n)).asString

/-- Python slice `l[a:b]` on a character list. -/
def pySlice (l : List Char) (a b : Nat) : List Char :=
  (l.take b).drop a

/-- Python `s.find(c)` for a single character: first index, as an `Option`. -/
def findChar (l : List Char) (c : Char) : Option Nat :=
  l.findIdx? (· = c)

/-- Python `s.rfind(c)` for a single character: last index, as an `Option`. -/
def rfindChar (l : List Char) (c : Char) : Option Nat :=
  match (l.reverse).findIdx? (· = c) with
  | some k => some (l.length - 1 - k)
  | none => none

/-- Python `s.split()` with no argument: words separated by whitespace runs,
no empty words. -/
def pyWordsAux : List Char → List Char → List (List Char)
  | cur, [] => if cur.isEmpty then [] else [cur.reverse]
  | cur, c :: rest =>
    if c.isWhitespace then
      (if cur.isEmpty then pyWordsAux [] rest else cur.reverse :: pyWordsAux [] rest)
    else pyWordsAux (c :: cur) rest

/-- Python `s.split()`: the list of whitespace-separated words of `s`. -/
def pyWords (s : String) : List String :=
  (pyWordsAux [] s.toList).map List.asString

/-- `list(dict.fromkeys(l))`: deduplicate keeping the first occurrence of
each element, preserving first-seen order (later duplicates of the head
are filtered out of the deduplicated tail). -/
def dedupKeepFirst : List String → List String
  | [] => []
  | x :: xs => x :: (dedupKeepFirst xs).filter (fun y => y ≠ x)

/-! ## Exact model of Python numeric rounding on rationals -/

/-- Round a rational to the nearest integer, ties to even: the rounding mode
of Python's builtin `round`. -/
def roundHalfEven (x : ℚ) : ℤ :=
  let n := Rat.floor x
  let f := x - (n : ℚ)
  if f < 1/2 then n
  else if 1/2 < f then n + 1
  else if n % 2 = 0 then n else n + 1

/-- Python `round(x, d)` modelled exactly on rationals. -/
def pyRound (x : ℚ) (d : Nat) : ℚ :=
  ((roundHalfEven (x * (10:ℚ)^d) : ℚ)) / (10:ℚ)^d

/-- Python `int(x)`: truncation toward zero. -/
def pyInt (x : ℚ) : ℤ :=
  if x < 0 then -(Rat.floor (-x)) else Rat.floor x

/-! ## Embedding of Python `json.loads` (strict mode)

`Json` carries number lexemes as strings: the claims under verification
depend only on parse success and on the shape (object/array/scalar) of
the result, never on numeric values. -/

inductive Json where
  | null
  | bool (b : Bool)
  | num (lexeme : String)
  | str (s : String)
  | arr (items : List Json)
  | obj (fields : List (String × Json))
-- no derived instances: the development only tests parse success and shape

/-- Whether a parsed JSON document is a structured payload (object or array). -/
def Json.isStructured : Json → Bool
  | .arr _ => true
  | .obj _ => true
  | _ => false

/-- JSON insignificant whitespace (the exact four characters Python's
decoder skips between tokens). -/
def jsonWsChar (c : Char) : Bool :=
  c = ' ' || c = '\t' || c = '\n' || c = '\r'

/-- Skip JSON whitespace. -/
def skipJsonWs : List Char → List Char
  | [] => []
  | c :: rest => if jsonWsChar c then skipJsonWs rest else c :: rest

/-- Value of a hexadecimal digit. -/
def hexVal (c : Char) : Option Nat :=
  if '0' ≤ c ∧ c ≤ '9' then some (c.toNat - '0'.toNat)
  else if 'a' ≤ c ∧ c ≤ 'f' then some (c.toNat - 'a'.toNat + 10)
  else if 'A' ≤ c ∧ c ≤ 'F' then some (c.toNat - 'A'.toNat + 10)
  else none

/-- Parse the body of a JSON string literal after the opening quote.
Python's strict decoder rejects unescaped control characters below 0x20. -/
def parseJsonStringBody : Nat → List Char → List Char → Option (String × List Char)
  | 0, _, _ => none
  | _, _, [] => none
  | fuel + 1, acc, c :: rest =>
    if c = '"' then some (acc.reverse.asString, rest)
    else if c = '\\' then
      match rest with
      | [] => none
      | e :: rest2 =>
        if e = '"' then parseJsonStringBody fuel ('"' :: acc) rest2
        else if e = '\\' then parseJsonStringBody fuel ('\\' :: acc) rest2
        else if e = '/' then parseJsonStringBody fuel ('/' :: acc) rest2
        else if e = 'b' then parseJsonStringBody fuel ((Char.ofNat 8) :: acc) rest2
        else if e = 'f' then parseJsonStringBody fuel ((Char.ofNat 12) :: acc) rest2
        else if e = 'n' then parseJsonStringBody fuel ('\n' :: acc) rest2
        else if e = 'r' then parseJsonStringBody fuel ('\r' :: acc) rest2
        else if e = 't' then parseJsonStringBody fuel ('\t' :: acc) rest2
        else if e = 'u' then
          match rest2 with
          | h1 :: h2 :: h3 :: h4 :: rest3 =>
            match hexVal h1, hexVal h2, hexVal h3, hexVal h4 with
            | some a, some b, some cc, some d =>
              parseJsonStringBody fuel ((Char.ofNat (a * 4096 + b * 256 + cc * 16 + d)) :: acc) rest3
            | _, _, _, _ => none
          | _ => none
        else none
    else if c.toNat < 32 then none
    else parseJsonStringBody fuel (c :: acc) rest

/-- Parse the digit run of a JSON number component. -/
def takeDigits (l : List Char) : List Char × List Char :=
  (l.takeWhile Char.isDigit, l.dropWhile Char.isDigit)

/-- Parse a JSON number starting at the current position (RFC 8259 grammar:
optional minus, `0` or nonzero-led digits, optional fraction, optional
exponent).  Returns the lexeme. -/
def parseJsonNumber (l : List Char) : Option (String × List Char) :=
  let (sign, l1) := match l with
    | '-' :: t => (['-'], t)
    | _ => (([] : List Char), l)
  match l1 with
  | [] => none
  | d :: _ =>
    if ¬ d.isDigit then none
    else
      let (intPart, l2) := takeDigits l1
      if intPart.length > 1 ∧ intPart.headD '0' = '0' then none
      else
        let (fracPart, l3) := match l2 with
          | '.' :: t =>
            let (ds, rest) := takeDigits t
            if ds.isEmpty then (none, l2) else (some ('.' :: ds), rest)
          | _ => (none, l2)
        match fracPart, l2 with
        | none, '.' :: _ => none
        | _, _ =>
          let fracChars := fracPart.getD []
          let (expPart, l4) := match l3 with
            | e :: t =>
              if e = 'e' ∨ e = 'E' then
                let (sgn, t2) := match t with
                  | '+' :: u => (['+'], u)
                  | '-' :: u => (['-'], u)
                  | _ => (([] : List Char), t)
                let (ds, rest) := takeDigits t2
                if ds.isEmpty then (none, l3) else (some (e :: (sgn ++ ds)), rest)
              else (none, l3)
            | [] => (none, l3)
          match expPart, l3 with
          | none, e :: _ =>
            if e = 'e' ∨ e = 'E' then none
            else some ((sign ++ intPart ++ fracChars).asString, l3)
          | none, [] => some ((sign ++ intPart ++ fracChars).asString, l3)
          | some ec, _ => some ((sign ++ intPart ++ fracChars ++ ec).asString, l4)

/-- Parse the items of a JSON array after the first item position, given a
value parser `pv` (the fuel-smaller instance of `parseJsonValue`). -/
def parseJsonArrayItems (pv : List Char → Option (Json × List Char)) :
    Nat → List Char → List Json → Option (List Json × List Char)
  | 0, _, _ => none
  | fuel + 1, l, acc =>
    match pv l with
    | none => none
    | some (v, rest) =>
      match skipJsonWs rest with
      | ',' :: r2 => parseJsonArrayItems pv fuel r2 (v :: acc)
      | ']' :: r2 => some ((v :: acc).reverse, r2)
      | _ => none

/-- Parse the members of a JSON object after the first member position. -/
def parseJsonObjMembers (pv : List Char → Option (Json × List Char)) :
    Nat → List Char → List (String × Json) → Option (List (String × Json) × List Char)
  | 0, _, _ => none
  | fuel + 1, l, acc =>
    match skipJsonWs l with
    | '"' :: r1 =>
      match parseJsonStringBody (r1.length + 1) [] r1 with
      | none => none
      | some (key, r2) =>
        match skipJsonWs r2 with
        | ':' :: r3 =>
          match pv r3 with
          | none => none
          | some (v, rest) =>
            match skipJsonWs rest with
            | ',' :: r4 => parseJsonObjMembers pv fuel r4 ((key, v) :: acc)
            | '}' :: r4 => some (((key, v) :: acc).reverse, r4)
            | _ => none
        | _ => none
    | _ => none

/-- Parse a single JSON value (after optional leading whitespace), including
the Python extensions `NaN`, `Infinity` and `-Infinity`. -/
def parseJsonValue : Nat → List Char → Option (Json × List Char)
  | 0, _ => none
  | fuel + 1, l =>
    match skipJsonWs l with
    | [] => none
    | c :: rest =>
      if c = '{' then
        match skipJsonWs rest with
        | '}' :: r2 => some (.obj [], r2)
        | r2 =>
          match parseJsonObjMembers (parseJsonValue fuel) fuel r2 [] with
          | some (ms, r3) => some (.obj ms, r3)
          | none => none
      else if c = '[' then
        match skipJsonWs rest with
        | ']' :: r2 => some (.arr [], r2)
        | r2 =>
          match parseJsonArrayItems (parseJsonValue fuel) fuel r2 [] with
          | some (vs, r3) => some (.arr vs, r3)
          | none => none
      else if c = '"' then
        match parseJsonStringBody (rest.length + 1) [] rest with
        | some (s, r2) => some (.str s, r2)
        | none => none
      else if ['t','r','u','e'].isPrefixOf (c :: rest) then
        some (.bool true, (c :: rest).drop 4)
      else if ['f','a','l','s','e'].isPrefixOf (c :: rest) then
        some (.bool false, (c :: rest).drop 5)
      else if ['n','u','l','l'].isPrefixOf (c :: rest) then
        some (.null, (c :: rest).drop 4)
      else if ['N','a','N'].isPrefixOf (c :: rest) then
        some (.num "NaN", (c :: rest).drop 3)
      else if ['I','n','f','i','n','i','t','y'].isPrefixOf (c :: rest) then
        some (.num "Infinity", (c :: rest).drop 8)
      else if ['-','I','n','f','i','n','i','t','y'].isPrefixOf (c :: rest) then
        some (.num "-Infinity", (c :: rest).drop 9)
      else
        match parseJsonNumber (c :: rest) with
        | some (lex, r2) => some (.num lex, r2)
        | none => none

/-- `json.loads(text)`: parse a complete JSON document, allowing surrounding
whitespace only. -/
def jsonLoads (text : String) : Option Json :=
  match parseJsonValue (text.toList.length + 2) text.toList with
  | some (v, rest) => if skipJsonWs rest = [] then some v else none
  | none => none

/-- Whether `json.loads(text)` succeeds. -/
def jsonParses (text : String) : Bool :=
  (jsonLoads text).isSome

/-! ## `src/tokenizers.py` -/

/-- `_heuristic_count`: general heuristic token counting,
`max(1, int((chars / 4) * 0.7 + (words * 1.3) * 0.3))` for non-empty text
(`int()` truncates), `0` for empty text. -/
def heuristic_count (text : String) : Nat :=
  if text = "" then 0
  else
    let words : ℚ := ((pyWords text).length : ℚ)
    let chars : ℚ := (text.length : ℚ)
    max 1 ((pyInt ((chars / 4) * (7/10) + (words * (13/10)) * (3/10))).toNat)

/-- `_heuristic_count_anthropic`: `int((chars / 4) + (words * 0.25))`. -/
def heuristic_count_anthropic (text : String) : Nat :=
  let words : ℚ := ((pyWords text).length : ℚ)
  let chars : ℚ := (text.length : ℚ)
  (pyInt ((chars / 4) + (words * (1/4)))).toNat

/-- `_heuristic_count_llama`: `int((chars / 3.5) + (words * 0.3))`. -/
def heuristic_count_llama (text : String) : Nat :=
  let words : ℚ := ((pyWords text).length : ℚ)
  let chars : ℚ := (text.length : ℚ)
  (pyInt ((chars / (7/2)) + (words * (3/10)))).toNat

/-- Python `a or b` applied to `_count_with_tiktoken(...) or heuristic`:
`None` and `0` both fall through to the heuristic. -/
def tiktokenOr (r : Option Nat) (fallback : Nat) : Nat :=
  match r with
  | some n => if n = 0 then fallback else n
  | none => fallback

/-- `count_tokens(model_tokenizer, text)`.  The tiktoken backend is an
oracle `tik : encoding name → text → Option count`; `none` models an absent
or failing `tiktoken` (the `_count_with_tiktoken` helper catches every
exception and returns `None`). -/
def count_tokens (tik : String → String → Option Nat) (model_tokenizer text : String) : Nat :=
  let tokenizer_type := pyStrip (pyLower model_tokenizer)
  if tokenizer_type = "anthropic" then
    tiktokenOr (tik "cl100k_base" text) (heuristic_count_anthropic text)
  else if tokenizer_type = "llama" then
    tiktokenOr (tik "gpt2" text) (heuristic_count_llama text)
  else if tokenizer_type = "heuristic" ∨ tokenizer_type = "titan" ∨
          tokenizer_type = "amazon" ∨ tokenizer_type = "nova" then
    heuristic_count text
  else if tokenizer_type = "qwen" then
    tiktokenOr (tik "gpt2" text) (heuristic_count_llama text)
  else if tokenizer_type = "alibaba" then
    tiktokenOr (tik "gpt2" text) (heuristic_count_llama text)
  else heuristic_count text

/-- Modelled from the spec: the spec's §4.2 "dense" heuristic uses
`round(chars/4 × 0.7 + words×1.3 × 0.3)` (Python `round`, half-to-even),
minimum 1 for non-empty text, where the source (`_heuristic_count`) uses
`int()` truncation instead. -/
def heuristic_count_specRound (text : String) : Nat :=
  if text = "" then 0
  else
    let words : ℚ := ((pyWords text).length : ℚ)
    let chars : ℚ := (text.length : ℚ)
    max 1 ((roundHalfEven ((chars / 4) * (7/10) + (words * (13/10)) * (3/10))).toNat)

/-! ## `_validate_json_with_cleaning` (src/evaluator.py lines 767-935)

The six markdown-fence regular expressions, the bracket-matching scan, the
regex fallback and the first/last-bracket fallback are each embedded as an
executable function; `re` semantics (leftmost non-overlapping matches,
greedy `\s*`, lazy `(.*?)`, DOTALL `.`) are implemented directly for the
fixed patterns appearing in the source. -/

/-- The backtick character (code 96). -/
def backtickChar : Char := Char.ofNat 96

/-- The closing/opening code fence, three backticks. -/
def fenceLit : List Char := [backtickChar, backtickChar, backtickChar]

/-- The trailer of a fence pattern after the lazy capture group:
`\n`+closing fence, `\s*`+closing fence, or the bare closing fence. -/
inductive FenceTrailer where
  | nl
  | ws
  | plain

/-- Length of the whitespace run at the head of `s` (regex `\s`). -/
def wsRunLen (s : List Char) : Nat :=
  (s.takeWhile Char.isWhitespace).length

/-- Try to match a fence trailer at the current position, returning the
number of characters it consumes.  For the `\s*` trailer the greedy star
takes the largest whitespace count followed by the closing fence. -/
def fenceTrailerHere (tr : FenceTrailer) (s : List Char) : Option Nat :=
  match tr with
  | .nl => if ('\n' :: fenceLit).isPrefixOf s then some 4 else none
  | .plain => if fenceLit.isPrefixOf s then some 3 else none
  | .ws =>
    (List.range (wsRunLen s + 1)).reverse.findSome? (fun m =>
      if fenceLit.isPrefixOf (s.drop m) then some (m + 3) else none)

/-- Lazy capture group `(.*?)` followed by a trailer: find the smallest
group length `j` such that the trailer matches at position `j`; returns
`(j, consumed-after-group-end)`. -/
def fenceLazyGroup (tr : FenceTrailer) : List Char → Option (Nat × Nat)
  | [] =>
    (match fenceTrailerHere tr [] with
     | some e => some (0, e)
     | none => none)
  | c :: t =>
    match fenceTrailerHere tr (c :: t) with
    | some e => some (0, e)
    | none =>
      match fenceLazyGroup tr t with
      | some (j, e) => some (j + 1, e)
      | none => none

/-- Head of a fence pattern after the opening literal: greedy `\s*`
(optionally required to end just before a literal `\n` for the
`\s*\n(.*?)\n` shaped patterns), then the lazy group and trailer.
Returns `(captured group, characters consumed)`.  Greedy backtracking:
larger whitespace counts are tried first. -/
def fenceHead (nlSep : Bool) (tr : FenceTrailer) (s : List Char) : Option (List Char × Nat) :=
  (List.range (wsRunLen s + 1)).reverse.findSome? (fun k =>
    if nlSep then
      match s.drop k with
      | '\n' :: afterNl =>
        match fenceLazyGroup tr afterNl with
        | some (j, e) => some (afterNl.take j, k + 1 + j + e)
        | none => none
      | _ => none
    else
      match fenceLazyGroup tr (s.drop k) with
      | some (j, e) => some ((s.drop k).take j, k + j + e)
      | none => none)

/-- Try to match one whole fence pattern at the current position.
`tag` selects the ```` ```json ```` opening literal over the bare fence. -/
def fenceMatchAt (tag nlSep : Bool) (tr : FenceTrailer) (s : List Char) :
    Option (List Char × Nat) :=
  let lit := if tag then fenceLit ++ ['j','s','o','n'] else fenceLit
  if lit.isPrefixOf s then
    match fenceHead nlSep tr (s.drop lit.length) with
    | some (g, consumed) => some (g, lit.length + consumed)
    | none => none
  else none

/-- `re.findall` for one fence pattern: scan left to right, take the
leftmost match, continue after its end (non-overlapping matches). -/
def fenceFindAll (tag nlSep : Bool) (tr : FenceTrailer) : Nat → List Char → List (List Char)
  | 0, _ => []
  | _, [] => []
  | fuel + 1, s =>
    match fenceMatchAt tag nlSep tr s with
    | some (g, consumed) => g :: fenceFindAll tag nlSep tr fuel (s.drop consumed)
    | none =>
      match s with
      | [] => []
      | _ :: t => fenceFindAll tag nlSep tr fuel t

/-- The six code-block patterns of `json_block_patterns`, in source order. -/
def fencePatterns : List (Bool × Bool × FenceTrailer) :=
  [(true, true, .nl), (false, true, .nl),
   (true, false, .ws), (false, false, .ws),
   (true, false, .plain), (false, false, .plain)]

/-- The markdown-code-block extraction step: for each pattern in order, for
each match in order, strip it and return the first stripped match that
parses as JSON. -/
def jsonBlockExtract (text : String) : Option String :=
  let s := text.toList
  fencePatterns.findSome? (fun p =>
    match p with
    | (tag, nlSep, tr) =>
      (fenceFindAll tag nlSep tr (s.length + 1) s).findSome? (fun g =>
        let cleaned := pyStrip g.asString
        if jsonParses cleaned then some cleaned else none))

/-- Result of the bracket-matching character scan. -/
inductive ScanResult where
  | parsed (candidate : String)
  | stopped (lastEnd : Option Nat) (depth : Int)

/-- The character loop of the bracket-matching scan: tracks quote state
with escape awareness, counts nesting of the chosen bracket kind only, and
at nesting depth zero parses the spanned substring; a parse failure there
records the position and stops (the source `break`).  The `i - start_idx >
50000` safety limit is checked after every character the source does not
`continue` past. -/
def bracketScanLoop (sc ec : Char) (full : List Char) (startIdx : Nat) :
    List Char → Nat → Int → Bool → Bool → ScanResult
  | [], _, depth, _, _ => .stopped none depth
  | c :: rest, i, depth, inStr, esc =>
    if esc then bracketScanLoop sc ec full startIdx rest (i + 1) depth inStr false
    else if c = '\\' then bracketScanLoop sc ec full startIdx rest (i + 1) depth inStr true
    else if c = '"' then bracketScanLoop sc ec full startIdx rest (i + 1) depth (!inStr) esc
    else if ¬ inStr ∧ c = sc then
      (if i - startIdx > 50000 then .stopped none (depth + 1)
       else bracketScanLoop sc ec full startIdx rest (i + 1) (depth + 1) inStr esc)
    else if ¬ inStr ∧ c = ec then
      (if depth - 1 = 0 then
        let candidate := (pySlice full startIdx (i + 1)).asString
        if jsonParses candidate then .parsed candidate else .stopped (some i) 0
      else if i - startIdx > 50000 then .stopped none (depth - 1)
      else bracketScanLoop sc ec full startIdx rest (i + 1) (depth - 1) inStr esc)
    else if i - startIdx > 50000 then .stopped none depth
    else bracketScanLoop sc ec full startIdx rest (i + 1) depth inStr esc

/-- One iteration of the bracket-scan `for start_char, end_char in ...`
loop: scan from the first occurrence of `sc`; afterwards retry the
candidate ending at the recorded failure position, then, if brackets are
still unbalanced, the span up to the last occurrence of `ec`. -/
def bracketScanOne (sc ec : Char) (tc : List Char) : Option String :=
  match findChar tc sc with
  | none => none
  | some startIdx =>
    match bracketScanLoop sc ec tc startIdx (tc.drop startIdx) startIdx 0 false false with
    | .parsed c => some c
    | .stopped lastEnd depth =>
      let retry : Option String :=
        match lastEnd with
        | some le =>
          if le > startIdx then
            let cand := (pySlice tc startIdx (le + 1)).asString
            if jsonParses cand then some cand else none
          else none
        | none => none
      match retry with
      | some c => some c
      | none =>
        if depth > 0 then
          match rfindChar tc ec with
          | some endIdx =>
            if endIdx > startIdx then
              let cand := (pySlice tc startIdx (endIdx + 1)).asString
              if jsonParses cand then some cand else none
            else none
          | none => none
        else none

/-- The bracket-matching scan over the stripped text: `{`/`}` first, then
`[`/`]`. -/
def bracketScan (text : String) : Option String :=
  let tc := (pyStrip text).toList
  match bracketScanOne '{' '}' tc with
  | some c => some c
  | none => bracketScanOne '[' ']' tc

/-- `re.finditer` for the lazy patterns `\[[\s\S]*?\]` / `\{[\s\S]*?\}`:
at each opening bracket the lazy star stops at the next closing bracket;
scanning resumes after the match end. -/
def lazyBracketMatches (oc cc : Char) : Nat → List Char → List (List Char)
  | 0, _ => []
  | _, [] => []
  | fuel + 1, c :: t =>
    if c = oc then
      match findChar t cc with
      | some j => (c :: t.take (j + 1)) :: lazyBracketMatches oc cc fuel (t.drop (j + 1))
      | none => []
    else lazyBracketMatches oc cc fuel t

/-- `re.finditer` for the greedy patterns `\[[\s\S]+\]` / `\{[\s\S]+\}`:
at each opening bracket the greedy plus reaches the last closing bracket
(at least one character in between); scanning resumes after the match end. -/
def greedyBracketMatches (oc cc : Char) : Nat → List Char → List (List Char)
  | 0, _ => []
  | _, [] => []
  | fuel + 1, c :: t =>
    if c = oc then
      match rfindChar t cc with
      | some j =>
        if j ≥ 1 then (c :: t.take (j + 1)) :: greedyBracketMatches oc cc fuel (t.drop (j + 1))
        else greedyBracketMatches oc cc fuel t
      | none => []
    else greedyBracketMatches oc cc fuel t

/-- All candidates produced by the regex fallback, in the source's pattern
order: lazy array, lazy object, greedy array, greedy object. -/
def regexCandidates (text : String) : List String :=
  let s := text.toList
  ((lazyBracketMatches '[' ']' (s.length + 1) s) ++
   (lazyBracketMatches '{' '}' (s.length + 1) s) ++
   (greedyBracketMatches '[' ']' (s.length + 1) s) ++
   (greedyBracketMatches '{' '}' (s.length + 1) s)).map List.asString

/-- The best-match fold of the regex fallback: keep the first seen
successfully-parsing candidate of strictly greatest length. -/
def bestMatchAux : List String → Option String → Nat → Option String
  | [], best, _ => best
  | c :: rest, best, bestLen =>
    if jsonParses c ∧ c.length > bestLen then bestMatchAux rest (some c) c.length
    else bestMatchAux rest best bestLen

/-- The regex-fallback step: the longest successfully-parsing candidate. -/
def regexFallback (text : String) : Option String :=
  bestMatchAux (regexCandidates text) none 0

/-- The final fallback: first `[` to last `]` when the array bracket comes
first, then (independently) first `{` to last `}`. -/
def finalFallback (text : String) : Option String :=
  let s := text.toList
  let firstBracket := findChar s '['
  let firstBrace := findChar s '{'
  let arrTry : Option String :=
    match firstBracket with
    | some fb =>
      if (match firstBrace with | none => true | some fc => fb < fc) then
        match rfindChar s ']' with
        | some lb =>
          if lb > fb then
            let cand := (pySlice s fb (lb + 1)).asString
            if jsonParses cand then some cand else none
          else none
        | none => none
      else none
    | none => none
  match arrTry with
  | some c => some c
  | none =>
    match firstBrace with
    | some fc =>
      match rfindChar s '}' with
      | some lb =>
        if lb > fc then
          let cand := (pySlice s fc (lb + 1)).asString
          if jsonParses cand then some cand else none
        else none
      | none => none
    | none => none

/-- The direct-parse stage: empty / whitespace-only text is reported
invalid; otherwise the stripped text is accepted whole when `json.loads`
succeeds on it; `none` means fall through to extraction. -/
def directParse (text : String) : Option (Bool × Option String) :=
  if pyStrip text = "" then some (false, none)
  else if jsonParses (pyStrip text) then some (true, some (pyStrip text))
  else none

/-- `_validate_json_with_cleaning(text)`: the layered validation pipeline
of src/evaluator.py lines 767-935. -/
def validate_json_with_cleaning (text : String) : Bool × Option String :=
  match directParse text with
  | some r => r
  | none =>
    match jsonBlockExtract text with
    | some c => (true, some c)
    | none =>
      match bracketScan text with
      | some c => (true, some c)
      | none =>
        match regexFallback text with
        | some c => (true, some c)
        | none =>
          match finalFallback text with
          | some c => (true, some c)
          | none => (false, none)

/-! ## `src/model_registry.py` -/

/-- The optional `pricing` section of a model configuration entry.  Python
`float()` conversion of the configured numbers is modelled as exact `ℚ`. -/
structure PricingCfg where
  input_per_1k_tokens_usd : Option ℚ
  output_per_1k_tokens_usd : Option ℚ
deriving DecidableEq

/-- A model configuration dictionary (the fields `evaluate_prompt` and the
registry read; `Option` models an absent key). -/
structure ModelConfig where
  name : Option String
  bedrock_model_id : Option String
  provider : Option String
  tokenizer : Option String
  use_inference_profile : Bool
  pricing : Option PricingCfg
deriving DecidableEq

/-- `ModelRegistry.get_model_pricing`: project the pricing section with
`0.0` defaults for a missing section or missing fields; the pair is
(input price, output price) per 1k tokens. -/
def get_model_pricing (model : ModelConfig) : ℚ × ℚ :=
  match model.pricing with
  | none => (0, 0)
  | some p => (p.input_per_1k_tokens_usd.getD 0, p.output_per_1k_tokens_usd.getD 0)

/-! ## `src/evaluator.py`: identifier variants and the Converse retry loop -/

/-- `model_id.rsplit(":", 1)[0] if ":" in model_id else model_id`. -/
def stripVersionSuffix (model_id : String) : String :=
  match rfindChar model_id.toList ':' with
  | some i => (model_id.toList.take i).asString
  | none => model_id

/-- The identifier-variant list built by `_invoke_converse` before
deduplication (src/evaluator.py lines 244-262). -/
def converseVariantsRaw (model_id : String) (use_inference_profile : Bool)
    (region_name : String) : List String :=
  if use_inference_profile || strContains model_id "us." || strContains model_id "global." then
    [model_id]
  else
    (if region_name = "us-east-2" then
      ["us." ++ model_id, "us." ++ stripVersionSuffix model_id ++ ":0"]
     else []) ++ [model_id, stripVersionSuffix model_id]

/-- The deduplicated identifier-variant list of `_invoke_converse`
(`list(dict.fromkeys(...))`, line 264). -/
def converseVariants (model_id : String) (use_inference_profile : Bool)
    (region_name : String) : List String :=
  dedupKeepFirst (converseVariantsRaw model_id use_inference_profile region_name)

/-- The identifier-variant list built by `_invoke_model_direct` before
deduplication (src/evaluator.py lines 379-398). -/
def directVariantsRaw (model_id provider : String) (use_inference_profile : Bool)
    (region_name : String) : List String :=
  if use_inference_profile || strContains model_id "us." || strContains model_id "global." then
    [model_id]
  else
    (if region_name = "us-east-2" then
      ["us." ++ model_id, "us." ++ stripVersionSuffix model_id ++ ":0"]
     else []) ++ [model_id] ++
    (if provider = "meta" || strContains (pyLower model_id) "llama" then
      (if stripVersionSuffix model_id ≠ model_id then [stripVersionSuffix model_id] else []) ++
      (if ¬ (model_id.toList.contains ':') then [model_id ++ ":0"] else [])
     else [])

/-- The deduplicated identifier-variant list of `_invoke_model_direct`
(line 400). -/
def directVariants (model_id provider : String) (use_inference_profile : Bool)
    (region_name : String) : List String :=
  dedupKeepFirst (directVariantsRaw model_id provider use_inference_profile region_name)

/-- Outcome of one network attempt against one identifier variant, as seen
by the `except` clauses of `_invoke_converse`: a successful Converse
response (extracted text plus the `usage` token counts), a
`botocore.ClientError` with its error code and message, or any other
exception with its string. -/
inductive InvokeOutcome where
  | ok (response_text : String) (inputTokens outputTokens : Nat)
  | clientError (code msg : String)
  | exn (msg : String)

/-- The remediation message built for an Anthropic entitlement error
(`ResourceNotFoundException` mentioning missing use case details), naming
the exact console action (src/evaluator.py lines 319-332 and 189-202). -/
def anthropicAccessMessage (region model_id : String) : String :=
  "Bedrock API error (ResourceNotFoundException): Model use case details have not been submitted for this account. " ++
  "Fill out the Anthropic use case details form before using the model. " ++
  "If you have already filled out the form, try again in 15 minutes. " ++
  "(tried model ID: " ++ model_id ++ ")\n\n" ++
  "TO FIX THIS ERROR:\n" ++
  "1. Go to AWS Bedrock Model Access: https://console.aws.amazon.com/bedrock/home?region=" ++
  region ++ "#/modelaccess\n" ++
  "2. Find \x27Anthropic\x27 in the provider list\n" ++
  "3. Click \x27Request model access\x27 or \x27Enable\x27\n" ++
  "4. Fill out the use case form and submit\n" ++
  "5. Wait 5-15 minutes for approval\n" ++
  "6. Try again after approval\n\n" ++
  "See MANUAL_GUIDE.md section \x27Issue 3.5\x27 or FIX_ANTHROPIC_ACCESS.md for detailed instructions."

/-- Whether an attempt outcome is the fatal entitlement/access-class error:
a `ResourceNotFoundException` whose message mentions missing use case
details (src/evaluator.py line 317). -/
def isEntitlementOutcome (o : InvokeOutcome) : Bool :=
  match o with
  | .clientError code msg =>
    code = "ResourceNotFoundException" && strContains (pyLower msg) "use case details"
  | _ => false

/-- Whether an error message triggers queueing of an inference-profile
variant (lines 338 and 354). -/
def mentionsInferenceProfile (msg : String) : Bool :=
  strContains (pyLower msg) "inference profile" ||
  strContains (pyLower msg) "on-demand throughput"

/-- `", ".join(f"'{id}'" for id in ids)`. -/
def joinQuoted (ids : List String) : String :=
  String.intercalate ", " (ids.map (fun i => "\x27" ++ i ++ "\x27"))

/-- The aggregated failure raised when every variant has been tried
(line 367). -/
def allFailedMessage (lastErr : Option String) (ids : List String) : String :=
  (match lastErr with | some s => s | none => "None") ++
  " All attempted model IDs: " ++ joinQuoted ids

/-- Append `us.<variant>` to the pending queue when the failing variant is
not already profile-qualified and the qualified form is not queued
(lines 339-343). -/
def queueInferenceProfileVariant (v : String) (processed rest : List String) : List String :=
  if ¬ (strStartsWith v "us." || strStartsWith v "global.") ∧
     ¬ ((processed ++ v :: rest).contains ("us." ++ v)) then
    rest ++ ["us." ++ v]
  else rest

/-- The `for variant_id in model_id_variants` retry loop of
`_invoke_converse` (lines 278-367), instrumented with the list of variant
ids for which a network attempt was actually issued (returned second).
`attempt` is the remote-endpoint oracle.  Python iterates over a list it
appends to, so the loop works on a processed/pending pair; the fuel only
guards Lean termination and exceeds the bounded queue growth for every
initial queue. -/
def converseLoop (attempt : String → InvokeOutcome) (tik : String → String → Option Nat)
    (tokenizer_type region : String) :
    Nat → List String → List String → Option String →
    Except String (String × Nat × Nat) × List String
  | 0, processed, _, lastErr =>
    (.error (allFailedMessage lastErr processed), processed)
  | _ + 1, processed, [], lastErr =>
    (.error (allFailedMessage lastErr processed), processed)
  | fuel + 1, processed, v :: rest, _lastErr =>
    match attempt v with
    | .ok text inTok outTok =>
      let outTokFinal := if outTok = 0 then count_tokens tik tokenizer_type text else outTok
      (.ok (text, outTokFinal, inTok), processed ++ [v])
    | .clientError code msg =>
      if code = "ResourceNotFoundException" ∧ strContains (pyLower msg) "use case details" then
        (.error (anthropicAccessMessage region v), processed ++ [v])
      else
        let le := "Bedrock API error (" ++ code ++ "): " ++ msg ++ " (tried model ID: " ++ v ++ ")"
        if mentionsInferenceProfile msg then
          converseLoop attempt tik tokenizer_type region fuel (processed ++ [v])
            (queueInferenceProfileVariant v processed rest) (some le)
        else if code ≠ "ValidationException" then
          (.error le, processed ++ [v])
        else
          converseLoop attempt tik tokenizer_type region fuel (processed ++ [v]) rest (some le)
    | .exn msg =>
      let le := "Failed to invoke model with ID \x27" ++ v ++ "\x27: " ++ msg
      if mentionsInferenceProfile msg then
        converseLoop attempt tik tokenizer_type region fuel (processed ++ [v])
          (queueInferenceProfileVariant v processed rest) (some le)
      else if ¬ strContains msg "ValidationException" then
        (.error le, processed ++ [v])
      else
        converseLoop attempt tik tokenizer_type region fuel (processed ++ [v]) rest (some le)

/-- `_invoke_converse`: build the variant list and run the retry loop. -/
def invoke_converse (attempt : String → InvokeOutcome) (tik : String → String → Option Nat)
    (tokenizer_type region model_id : String) (use_inference_profile : Bool) :
    Except String (String × Nat × Nat) × List String :=
  let variants := converseVariants model_id use_inference_profile region
  converseLoop attempt tik tokenizer_type region (2 * variants.length + 2) [] variants none

/-! ## `evaluate_prompt` (src/evaluator.py lines 33-209) -/

/-- The metrics dictionary built by one `evaluate_prompt` call; keys that
are only conditionally written (`response`, `cleaned_response`,
`original_response`) are `Option` fields. -/
structure MetricRecord where
  timestamp : String
  run_id : String
  model_name : String
  model_id : String
  prompt_id : Option Int
  input_prompt : String
  input_tokens : Nat
  output_tokens : Nat
  latency_ms : ℚ
  json_valid : Option Bool
  error : Option String
  status : String
  cost_usd_input : ℚ
  cost_usd_output : ℚ
  cost_usd_total : ℚ
  response : Option String
  cleaned_response : Option String
  original_response : Option String
deriving DecidableEq

/-- The cost computation of src/evaluator.py lines 170-177:
round each direction to 6 decimals, and round the sum of the two
*unrounded* costs to 6 decimals. -/
def computeCosts (input_tokens output_tokens : Nat) (pin pout : ℚ) : ℚ × ℚ × ℚ :=
  let input_cost := ((input_tokens : ℚ) / 1000) * pin
  let output_cost := ((output_tokens : ℚ) / 1000) * pout
  (pyRound input_cost 6, pyRound output_cost 6, pyRound (input_cost + output_cost) 6)

/-- The prefixes stripped by the aggressive-cleaning retry (lines 125-132). -/
def prefixesToRemove : List String :=
  ["Here\x27s the JSON:", "Here is the JSON:", "The JSON response is:", "JSON:",
   "```json", "```"]

/-- The suffixes stripped by the aggressive-cleaning retry (lines 141-145). -/
def suffixesToRemove : List String :=
  ["```", "Hope this helps!", "Let me know if you need anything else."]

/-- One case-insensitive prefix strip with the trailing-colon cleanup
(lines 133-138). -/
def stripOnePrefix (s p : String) : String :=
  if strStartsWith (pyLower s) (pyLower p) then
    let r := pyStrip (strDrop s p.length)
    if strStartsWith r ":" then pyStrip (strDrop r 1) else r
  else s

/-- One case-insensitive suffix strip (lines 146-148). -/
def stripOneSuffix (s p : String) : String :=
  if strEndsWith (pyLower s) (pyLower p) then pyStrip (strDropRight s p.length)
  else s

/-- The aggressive cleaning applied when validation failed and JSON was
expected: strip the response, remove the known prefixes in order, then the
known suffixes in order (lines 121-148). -/
def aggressiveClean (response_text : String) : String :=
  let c := pyStrip response_text
  let c := prefixesToRemove.foldl stripOnePrefix c
  suffixesToRemove.foldl stripOneSuffix c

/-- Python truthiness of the optional cleaned-JSON string
(`if is_valid and cleaned_json:`). -/
def optTruthy (o : Option String) : Bool :=
  match o with
  | some s => ¬ s.isEmpty
  | none => false

/-- The JSON-validation block of `evaluate_prompt` (lines 106-168):
returns the `json_valid`, `cleaned_response` and `original_response`
fields of the record. -/
def evalJsonFields (expected_json : Bool) (response_text : String)
    (output_tokens_actual : Nat) : Option Bool × Option String × Option String :=
  if pyStrip response_text = "" ∨ output_tokens_actual = 0 then
    ((if expected_json then some false else none), none, none)
  else
    let v1 := validate_json_with_cleaning response_text
    let v2 :=
      if ¬ v1.1 ∧ expected_json then
        let cr := aggressiveClean response_text
        if cr ≠ response_text then validate_json_with_cleaning cr else v1
      else v1
    if expected_json then
      (some v2.1,
       (if v2.1 && optTruthy v2.2 then v2.2 else none),
       (if ¬ v2.1 then some (strTake response_text 500) else none))
    else
      (some v2.1,
       (if v2.1 && optTruthy v2.2 then v2.2 else none),
       none)

/-- The error-message enhancement of the `except` handler of
`evaluate_prompt` (lines 184-202): an Anthropic access error that does not
already carry the remediation text is rewritten to it. -/
def enhanceAccessError (region model_id errorStr : String) : String :=
  if strContains (pyLower errorStr) "use case details" ∧
     strContains errorStr "ResourceNotFoundException" ∧
     ¬ strContains errorStr "TO FIX THIS ERROR" then
    anthropicAccessMessage region model_id
  else errorStr

/-- `evaluate_prompt(prompt, model, prompt_id, expected_json, run_id)`.
`tik` is the tiktoken oracle, `region` the evaluator's region,
`timestamp` the formatted `datetime.utcnow()` string, `uuid` the fresh
uuid prefix used when `run_id` is absent, `invokeResult` the outcome of
`self._invoke_model(...)` (the only fallible step of the guarded
sequence under this embedding, where configured numbers are well-typed
rationals), and `elapsed_ms` the stopwatch reading. -/
def evaluate_prompt (tik : String → String → Option Nat)
    (region timestamp uuid : String) (prompt : String) (model : ModelConfig)
    (prompt_id : Option Int) (expected_json : Bool) (run_id : Option String)
    (invokeResult : Except String (String × Nat × Nat)) (elapsed_ms : ℚ) : MetricRecord :=
  let run_id := run_id.getD uuid
  let model_name := model.name.getD "unknown"
  let model_id := model.bedrock_model_id.getD "unknown"
  let tokenizer_type := model.tokenizer.getD "heuristic"
  let input_tokens := count_tokens tik tokenizer_type prompt
  let base : MetricRecord := {
    timestamp := timestamp, run_id := run_id, model_name := model_name,
    model_id := model_id, prompt_id := prompt_id, input_prompt := prompt,
    input_tokens := input_tokens, output_tokens := 0, latency_ms := 0,
    json_valid := some false, error := none, status := "success",
    cost_usd_input := 0, cost_usd_output := 0, cost_usd_total := 0,
    response := none, cleaned_response := none, original_response := none }
  match invokeResult with
  | .error e =>
    { base with
      status := "error",
      error := some (enhanceAccessError region model_id e),
      latency_ms := elapsed_ms }
  | .ok (response_text, output_tokens_actual, input_tokens_actual) =>
    let input_tokens_final := if input_tokens_actual > 0 then input_tokens_actual else input_tokens
    let jf := evalJsonFields expected_json response_text output_tokens_actual
    let pricing := get_model_pricing model
    let costs := computeCosts input_tokens_final output_tokens_actual pricing.1 pricing.2
    { base with
      latency_ms := elapsed_ms,
      output_tokens := output_tokens_actual,
      input_tokens := input_tokens_final,
      response := some response_text,
      json_valid := jf.1,
      cleaned_response := jf.2.1,
      original_response := jf.2.2,
      cost_usd_input := costs.1,
      cost_usd_output := costs.2.1,
      cost_usd_total := costs.2.2 }

/-! ## `src/report_generator.py` -/

/-- Insertion of one element into a `le`-sorted list. -/
def insertLe {α : Type} (le : α → α → Bool) (x : α) : List α → List α
  | [] => [x]
  | y :: ys => if le x y then x :: y :: ys else y :: insertLe le x ys

/-- Insertion sort by a boolean `le`. -/
def sortByLe {α : Type} (le : α → α → Bool) (l : List α) : List α :=
  l.foldr (insertLe le) []

/-- Lexicographic order on character lists by code point (Python string
comparison). -/
def charListLe : List Char → List Char → Bool
  | [], _ => true
  | _ :: _, [] => false
  | a :: as, b :: bs =>
    if a.toNat < b.toNat then true
    else if b.toNat < a.toNat then false
    else charListLe as bs

/-- Python `s1 <= s2` on strings. -/
def strLe (a b : String) : Bool :=
  charListLe a.toList b.toList

/-- Sum of a list of rationals. -/
def sumQ (xs : List ℚ) : ℚ := xs.foldr (· + ·) 0

/-- Arithmetic mean (pandas `Series.mean` over a non-empty group). -/
def meanQ (xs : List ℚ) : ℚ :=
  if xs.isEmpty then 0 else sumQ xs / (xs.length : ℚ)

/-- pandas `Series.min` over a non-empty group. -/
def minQ : List ℚ → ℚ
  | [] => 0
  | x :: r => r.foldl min x

/-- pandas `Series.max` over a non-empty group. -/
def maxQ : List ℚ → ℚ
  | [] => 0
  | x :: r => r.foldl max x

/-- pandas `Series.quantile(p)` with the default linear interpolation:
position `h = (n-1)p` in the sorted sample, interpolating between the two
nearest ranks. -/
def quantileLinear (xs : List ℚ) (p : ℚ) : ℚ :=
  match sortByLe (fun a b => decide (a ≤ b)) xs with
  | [] => 0
  | s =>
    let n := s.length
    let h : ℚ := ((n : ℚ) - 1) * p
    let lo : Nat := (Rat.floor h).toNat
    let x0 := s.getD lo 0
    let x1 := s.getD (min (lo + 1) (n - 1)) 0
    x0 + (h - ((Rat.floor h : ℤ) : ℚ)) * (x1 - x0)

/-- `percentile(series, p)` of src/report_generator.py lines 9-13: `0.0`
for an empty series, else the linear-interpolation quantile. -/
def percentile (xs : List ℚ) (p : ℚ) : ℚ :=
  if xs.isEmpty then 0 else quantileLinear xs p

/-- One row of the aggregated comparison report. -/
structure ModelSummary where
  model_name : String
  count : Nat
  success_count : Nat
  error_count : Nat
  avg_input_tokens : ℚ
  avg_output_tokens : ℚ
  p50_latency_ms : ℚ
  p95_latency_ms : ℚ
  p99_latency_ms : ℚ
  min_latency_ms : ℚ
  max_latency_ms : ℚ
  json_valid_pct : ℚ
  avg_cost_usd_per_request : ℚ
  total_cost_usd : ℚ
deriving DecidableEq

/-- The `status == "success"` records of one model, in collection order
(the grouping key of `generate_report`). -/
def successGroup (records : List MetricRecord) (m : String) : List MetricRecord :=
  records.filter (fun r => r.status = "success" && r.model_name = m)

/-- One aggregation row of `generate_report` (src/report_generator.py
lines 102-124): latency/token/cost statistics over the model's success
group only, the error count over the whole collection. After the CSV
round-trip coercions, `json_valid` contributes 1 exactly when it is
`True`. -/
def mkSummary (records : List MetricRecord) (m : String) : ModelSummary :=
  let group := successGroup records m
  let n := group.length
  let lats := group.map (fun r => r.latency_ms)
  let jvCount := (group.filter (fun r => r.json_valid = some true)).length
  { model_name := m,
    count := n,
    success_count := n,
    error_count := (records.filter (fun r => r.model_name = m && r.status = "error")).length,
    avg_input_tokens := pyRound (meanQ (group.map (fun r => (r.input_tokens : ℚ)))) 1,
    avg_output_tokens := pyRound (meanQ (group.map (fun r => (r.output_tokens : ℚ)))) 1,
    p50_latency_ms := pyRound (percentile lats (1/2)) 1,
    p95_latency_ms := pyRound (percentile lats (19/20)) 1,
    p99_latency_ms := pyRound (percentile lats (99/100)) 1,
    min_latency_ms := pyRound (minQ lats) 1,
    max_latency_ms := pyRound (maxQ lats) 1,
    json_valid_pct := pyRound (if n > 0 then ((jvCount : ℚ) / (n : ℚ)) * 100 else 0) 2,
    avg_cost_usd_per_request := pyRound (meanQ (group.map (fun r => r.cost_usd_total))) 6,
    total_cost_usd := pyRound (sumQ (group.map (fun r => r.cost_usd_total))) 6 }

/-- The group keys of `generate_report`: the distinct model names occurring
among the success records, in ascending name order (`groupby` sorts its
keys; the final `sort_values("model_name")` keeps that order). -/
def reportModelNames (records : List MetricRecord) : List String :=
  sortByLe strLe
    (dedupKeepFirst ((records.filter (fun r => r.status = "success")).map (fun r => r.model_name)))

/-- `ReportGenerator.generate_report` over an in-memory record collection:
one summary row per distinct model name among the success records.  Models
with only error records have an empty group after the success filter and
produce no row. -/
def generate_report (records : List MetricRecord) : List ModelSummary :=
  (reportModelNames records).map (mkSummary records)

/-! ## Shared helper lemmas -/

unseal Rat.mul Rat.inv Rat.add Rat.sub in
theorem roundHalfEven_zero : roundHalfEven 0 = 0 := by decide

theorem pyRound_zero (d : Nat) : pyRound 0 d = 0 := by
  simp [pyRound, roundHalfEven_zero]

theorem dedupKeepFirst_sublist : ∀ l : List String, List.Sublist (dedupKeepFirst l) l := by
  intro l
  induction l with
  | nil => simp [dedupKeepFirst]
  | cons x xs ih =>
    rw [dedupKeepFirst]
    exact List.Sublist.cons₂ x ((List.filter_sublist _).trans ih)

theorem mem_dedupKeepFirst : ∀ (l : List String) (a : String), a ∈ dedupKeepFirst l ↔ a ∈ l := by
  intro l
  induction l with
  | nil => simp [dedupKeepFirst]
  | cons x xs ih =>
    intro a
    rw [dedupKeepFirst]
    constructor
    · intro h
      rcases List.mem_cons.mp h with h | h
      · exact h ▸ List.mem_cons_self _ _
      · exact List.mem_cons_of_mem _ ((ih a).mp ((List.filter_sublist _).mem h))
    · intro h
      rcases List.mem_cons.mp h with h | h
      · exact h ▸ List.mem_cons_self _ _
      · by_cases hax : a = x
        · exact hax ▸ List.mem_cons_self _ _
        · exact List.mem_cons_of_mem _
            (List.mem_filter.mpr ⟨(ih a).mpr h, by simpa using hax⟩)

theorem nodup_dedupKeepFirst : ∀ l : List String, (dedupKeepFirst l).Nodup := by
  intro l
  induction l with
  | nil => simp [dedupKeepFirst]
  | cons x xs ih =>
    rw [dedupKeepFirst]
    refine List.nodup_cons.mpr ⟨fun hx => ?_, ih.filter _⟩
    have := List.mem_filter.mp hx
    simp at this

theorem mem_insertLe {α : Type} (le : α → α → Bool) (x a : α) :
    ∀ l : List α, a ∈ insertLe le x l ↔ a = x ∨ a ∈ l := by
  intro l
  induction l with
  | nil => simp [insertLe]
  | cons y ys ih =>
    cases hle : le x y with
    | true => simp [insertLe, hle]
    | false =>
      simp only [insertLe, hle, Bool.false_eq_true, if_false, List.mem_cons, ih]
      tauto

theorem mem_sortByLe {α : Type} (le : α → α → Bool) (a : α) :
    ∀ l : List α, a ∈ sortByLe le l ↔ a ∈ l := by
  intro l
  induction l with
  | nil => simp [sortByLe]
  | cons y ys ih =>
    simp only [sortByLe, List.foldr_cons]
    rw [mem_insertLe, List.mem_cons]
    constructor
    · rintro (h | h)
      · exact Or.inl h
      · exact Or.inr ((ih).mp (by simpa [sortByLe] using h))
    · rintro (h | h)
      · exact Or.inl h
      · exact Or.inr (by simpa [sortByLe] using (ih).mpr h)

theorem nodup_insertLe {α : Type} (le : α → α → Bool) (x : α) :
    ∀ l : List α, x ∉ l → l.Nodup → (insertLe le x l).Nodup := by
  intro l
  induction l with
  | nil => intro _ _; simp [insertLe]
  | cons y ys ih =>
    intro hx hnd
    rcases List.nodup_cons.mp hnd with ⟨hy, hys⟩
    cases hle : le x y with
    | true =>
      simp only [insertLe, hle, if_true]
      refine List.nodup_cons.mpr ⟨?_, hnd⟩
      simpa using hx
    | false =>
      simp only [insertLe, hle, Bool.false_eq_true, if_false]
      refine List.nodup_cons.mpr ⟨?_, ih (fun hc => hx (List.mem_cons_of_mem _ hc)) hys⟩
      intro hc
      rcases (mem_insertLe le x y ys).mp hc with rfl | hc
      · exact hx (List.mem_cons_self _ _)
      · exact hy hc

theorem nodup_sortByLe {α : Type} (le : α → α → Bool) :
    ∀ l : List α, l.Nodup → (sortByLe le l).Nodup := by
  intro l
  induction l with
  | nil => intro _; simp [sortByLe]
  | cons y ys ih =>
    intro hnd
    rcases List.nodup_cons.mp hnd with ⟨hy, hys⟩
    simp only [sortByLe, List.foldr_cons]
    refine nodup_insertLe le y _ ?_ (by simpa [sortByLe] using ih hys)
    intro hc
    exact hy (by simpa [sortByLe] using (mem_sortByLe le y ys).mp (by simpa [sortByLe] using hc))

/-! ## Claim C3: cost fields of a successful evaluation -/

unseal Rat.mul Rat.inv Rat.add Rat.sub in
/-- Claim C3 counterexample: at input_tokens = output_tokens = 1 and both
prices 0.0004995, the code's total is `round(raw_in + raw_out, 6) =
0.000001`, while rounding the sum of the two already-rounded cost fields
(both 0) gives 0 — so the claimed formula
`cost_usd_total = round(cost_usd_input + cost_usd_output, 6)` over the
rounded fields is false on the code. -/
theorem claim_C3_counterexample :
    computeCosts 1 1 (4995/10000000) (4995/10000000) = (0, 0, 1/1000000) ∧
    pyRound ((computeCosts 1 1 (4995/10000000) (4995/10000000)).1 +
             (computeCosts 1 1 (4995/10000000) (4995/10000000)).2.1) 6 = 0 ∧
    ((1:ℚ)/1000000) ≠ 0 := by
  refine ⟨by decide, by decide, by decide⟩

/-- Claim C3 (amended): for every record produced by a successful
evaluation, `cost_usd_input = round(input_tokens/1000 × input_price, 6)`,
`cost_usd_output = round(output_tokens/1000 × output_price, 6)` and
`cost_usd_total = round(raw_input_cost + raw_output_cost, 6)` — the total
rounds the sum of the two *unrounded* per-direction costs, not of the
already-rounded fields; whenever tokens = 0 or the price is 0, the
corresponding cost is exactly 0. -/
theorem claim_C3_costs (tik : String → String → Option Nat)
    (region timestamp uuid prompt : String) (model : ModelConfig)
    (prompt_id : Option Int) (expected_json : Bool) (run_id : Option String)
    (elapsed_ms : ℚ) (text : String) (ot itk : Nat) (r : MetricRecord) (itf : Nat)
    (hr : r = evaluate_prompt tik region timestamp uuid prompt model prompt_id
            expected_json run_id (.ok (text, ot, itk)) elapsed_ms)
    (hitf : itf = if itk > 0 then itk
            else count_tokens tik (model.tokenizer.getD "heuristic") prompt) :
    r.cost_usd_input = pyRound (((itf : ℚ) / 1000) * (get_model_pricing model).1) 6 ∧
    r.cost_usd_output = pyRound (((ot : ℚ) / 1000) * (get_model_pricing model).2) 6 ∧
    r.cost_usd_total = pyRound (((itf : ℚ) / 1000) * (get_model_pricing model).1 +
                                ((ot : ℚ) / 1000) * (get_model_pricing model).2) 6 ∧
    (itf = 0 → r.cost_usd_input = 0) ∧
    ((get_model_pricing model).1 = 0 → r.cost_usd_input = 0) ∧
    (ot = 0 → r.cost_usd_output = 0) ∧
    ((get_model_pricing model).2 = 0 → r.cost_usd_output = 0) := by
  subst hr
  have h1 : (evaluate_prompt tik region timestamp uuid prompt model prompt_id
      expected_json run_id (.ok (text, ot, itk)) elapsed_ms).cost_usd_input =
      pyRound (((itf : ℚ) / 1000) * (get_model_pricing model).1) 6 := by
    simp [evaluate_prompt, computeCosts, hitf]
  have h2 : (evaluate_prompt tik region timestamp uuid prompt model prompt_id
      expected_json run_id (.ok (text, ot, itk)) elapsed_ms).cost_usd_output =
      pyRound (((ot : ℚ) / 1000) * (get_model_pricing model).2) 6 := by
    simp [evaluate_prompt, computeCosts]
  have h3 : (evaluate_prompt tik region timestamp uuid prompt model prompt_id
      expected_json run_id (.ok (text, ot, itk)) elapsed_ms).cost_usd_total =
      pyRound (((itf : ℚ) / 1000) * (get_model_pricing model).1 +
               ((ot : ℚ) / 1000) * (get_model_pricing model).2) 6 := by
    simp [evaluate_prompt, computeCosts, hitf]
  refine ⟨h1, h2, h3, ?_, ?_, ?_, ?_⟩
  · intro h0
    rw [h1, h0]
    simpa using pyRound_zero 6
  · intro h0
    rw [h1, h0]
    simpa using pyRound_zero 6
  · intro h0
    rw [h2, h0]
    simpa using pyRound_zero 6
  · intro h0
    rw [h2, h0]
    simpa using pyRound_zero 6

unseal Rat.mul Rat.inv Rat.add Rat.sub in
/-- Claim C3 witness: the amended cost equations instantiated at a concrete
successful evaluation. -/
theorem claim_C3_witness :
    (evaluate_prompt (fun _ _ => none) "us-east-1" "t" "u" "hi"
        ⟨some "M", some "mid", some "amazon", some "heuristic", false,
         some ⟨some (2/1000), some (6/1000)⟩⟩
        none false (some "run") (.ok ("ok", 5, 7)) 12).cost_usd_output =
      pyRound (((5 : ℚ) / 1000) * (6/1000)) 6 ∧
    (evaluate_prompt (fun _ _ => none) "us-east-1" "t" "u" "hi"
        ⟨some "M", some "mid", some "amazon", some "heuristic", false,
         some ⟨some (2/1000), some (6/1000)⟩⟩
        none false (some "run") (.ok ("ok", 0, 7)) 12).cost_usd_output = 0 := by
  constructor
  · exact (claim_C3_costs (fun _ _ => none) "us-east-1" "t" "u" "hi" _ none false
      (some "run") 12 "ok" 5 7 _ 7 rfl (by decide)).2.1
  · exact (claim_C3_costs (fun _ _ => none) "us-east-1" "t" "u" "hi" _ none false
      (some "run") 12 "ok" 0 7 _ 7 rfl (by decide)).2.2.2.2.2.1 rfl

/-! ## Claim C5: the dense/generic token heuristic -/

unseal Rat.mul Rat.inv Rat.add Rat.sub in
/-- Claim C5 counterexample: for the 7-character one-word text "abcdefg"
the blended estimate is 1.615; the code truncates with `int()` and returns
1, while the claimed/spec formula `round(chars/4 × 0.7 + words×1.3 × 0.3)`
rounds to 2. -/
theorem claim_C5_counterexample :
    count_tokens (fun _ _ => none) "heuristic" "abcdefg" = 1 ∧
    heuristic_count_specRound "abcdefg" = 2 := by
  refine ⟨by decide, by decide⟩

/-- Claim C5 (amended): for every tokenizer kind that is not one of the
tiktoken-backed kinds (anthropic/llama/qwen/alibaba) — in particular for
heuristic/titan/amazon/nova and for every unrecognized kind — the
estimator returns the dense heuristic, which for non-empty text equals
`max(1, int(chars/4 × 0.7 + words×1.3 × 0.3))` with `int()` truncating
(the source truncates; it does not round as the claim states). -/
theorem claim_C5_dense_heuristic (tik : String → String → Option Nat) (kind text : String)
    (hk : pyStrip (pyLower kind) ∉ (["anthropic", "llama", "qwen", "alibaba"] : List String)) :
    count_tokens tik kind text = heuristic_count text ∧
    (text ≠ "" → heuristic_count text =
      max 1 ((pyInt (((text.length : ℚ) / 4) * (7/10) +
        (((pyWords text).length : ℚ) * (13/10)) * (3/10))).toNat)) := by
  have h1 : pyStrip (pyLower kind) ≠ "anthropic" := fun h => hk (by simp [h])
  have h2 : pyStrip (pyLower kind) ≠ "llama" := fun h => hk (by simp [h])
  have h3 : pyStrip (pyLower kind) ≠ "qwen" := fun h => hk (by simp [h])
  have h4 : pyStrip (pyLower kind) ≠ "alibaba" := fun h => hk (by simp [h])
  constructor
  · by_cases h5 : pyStrip (pyLower kind) = "heuristic" ∨ pyStrip (pyLower kind) = "titan" ∨
        pyStrip (pyLower kind) = "amazon" ∨ pyStrip (pyLower kind) = "nova"
    · simp [count_tokens, h1, h2, h5]
    · simp [count_tokens, h1, h2, h3, h4, h5]
  · intro hne
    simp [heuristic_count, hne]

unseal Rat.mul Rat.inv Rat.add Rat.sub in
/-- Claim C5 witness: the amended statement at kind "titan" and text
"hello world". -/
theorem claim_C5_witness :
    count_tokens (fun _ _ => none) "titan" "hello world" = heuristic_count "hello world" ∧
    heuristic_count "hello world" =
      max 1 ((pyInt ((((11:Nat) : ℚ) / 4) * (7/10) +
        ((((["hello", "world"] : List String).length : Nat) : ℚ) * (13/10)) * (3/10))).toNat) := by
  constructor
  · exact (claim_C5_dense_heuristic (fun _ _ => none) "titan" "hello world" (by decide)).1
  · have := (claim_C5_dense_heuristic (fun _ _ => none) "titan" "hello world" (by decide)).2
      (by decide)
    simpa using this

/-! ## Claim C9: the estimator is total, non-negative, 0 on empty text,
and falls back to the heuristics -/

/-- Python `x or y` collapse for a tiktoken result that is absent or 0. -/
theorem tiktokenOr_degenerate (r : Option Nat) (f : Nat)
    (h : r = none ∨ r = some 0) : tiktokenOr r f = f := by
  rcases h with h | h <;> simp [tiktokenOr, h]

unseal Rat.mul Rat.inv Rat.add Rat.sub in
theorem heuristic_count_empty : heuristic_count "" = 0 := by decide

unseal Rat.mul Rat.inv Rat.add Rat.sub in
theorem heuristic_count_anthropic_empty : heuristic_count_anthropic "" = 0 := by decide

unseal Rat.mul Rat.inv Rat.add Rat.sub in
theorem heuristic_count_llama_empty : heuristic_count_llama "" = 0 := by decide

/-- Claim C9: for every tokenizer-kind string and text the estimator is a
total function into `Nat` (hence non-negative and never raising — the
`_count_with_tiktoken` helper catches every backend exception, modelled by
the oracle returning `none`); it returns 0 for empty text whenever the
tiktoken oracle is honest on empty text; and with an unavailable backend
every kind falls back to the corresponding heuristic. -/
theorem claim_C9_estimator (tik : String → String → Option Nat) (kind text : String)
    (hempty : ∀ enc, tik enc "" = none ∨ tik enc "" = some 0) :
    0 ≤ count_tokens tik kind text ∧
    count_tokens tik kind "" = 0 ∧
    (∀ k t, count_tokens (fun _ _ => none) k t =
      (if pyStrip (pyLower k) = "anthropic" then heuristic_count_anthropic t
       else if pyStrip (pyLower k) = "llama" ∨ pyStrip (pyLower k) = "qwen" ∨
               pyStrip (pyLower k) = "alibaba" then heuristic_count_llama t
       else heuristic_count t)) := by
  refine ⟨Nat.zero_le _, ?_, ?_⟩
  · simp only [count_tokens]
    split_ifs <;>
      simp [tiktokenOr_degenerate _ _ (hempty _), heuristic_count_empty,
        heuristic_count_anthropic_empty, heuristic_count_llama_empty]
  · intro k t
    simp only [count_tokens, tiktokenOr]
    split_ifs <;> try rfl
    all_goals exfalso
    all_goals try casesm* _ ∨ _
    all_goals simp_all

/-- Claim C9 witness: instantiation with the absent-backend oracle. -/
theorem claim_C9_witness :
    count_tokens (fun _ _ => none) "anthropic" "" = 0 ∧
    count_tokens (fun _ _ => none) "weird-kind" "x" = heuristic_count "x" := by
  constructor
  · exact (claim_C9_estimator (fun _ _ => none) "anthropic" ""
      (fun _ => Or.inl rfl)).2.1
  · have := (claim_C9_estimator (fun _ _ => none) "anthropic" ""
      (fun _ => Or.inl rfl)).2.2 "weird-kind" "x"
    simpa using this

/-! ## Claim C10: pricing projection defaults and zero-cost evaluation -/

/-- Claim C10: the pricing projection returns both price fields (as exact
rationals modelling the `float()` conversions) and defaults a missing
pricing section or missing field to 0.0; a model configured without
pricing is evaluated with all three cost fields equal to 0 rather than
failing (the embedding is total). -/
theorem claim_C10_pricing_defaults (tik : String → String → Option Nat)
    (region timestamp uuid prompt : String) (model : ModelConfig)
    (prompt_id : Option Int) (expected_json : Bool) (run_id : Option String)
    (elapsed_ms : ℚ) (v : String × Nat × Nat) :
    (model.pricing = none → get_model_pricing model = (0, 0)) ∧
    (∀ p, model.pricing = some p → p.input_per_1k_tokens_usd = none →
      (get_model_pricing model).1 = 0) ∧
    (∀ p, model.pricing = some p → p.output_per_1k_tokens_usd = none →
      (get_model_pricing model).2 = 0) ∧
    (model.pricing = none →
      (evaluate_prompt tik region timestamp uuid prompt model prompt_id
        expected_json run_id (.ok v) elapsed_ms).cost_usd_input = 0 ∧
      (evaluate_prompt tik region timestamp uuid prompt model prompt_id
        expected_json run_id (.ok v) elapsed_ms).cost_usd_output = 0 ∧
      (evaluate_prompt tik region timestamp uuid prompt model prompt_id
        expected_json run_id (.ok v) elapsed_ms).cost_usd_total = 0) := by
  obtain ⟨text, ot, itk⟩ := v
  refine ⟨?_, ?_, ?_, ?_⟩
  · intro h
    simp [get_model_pricing, h]
  · intro p hp hf
    simp [get_model_pricing, hp, hf]
  · intro p hp hf
    simp [get_model_pricing, hp, hf]
  · intro h
    have hp : get_model_pricing model = (0, 0) := by simp [get_model_pricing, h]
    refine ⟨?_, ?_, ?_⟩ <;>
      simp [evaluate_prompt, computeCosts, hp, pyRound_zero]

/-- Claim C10 witness: a model with no pricing section evaluates with zero
cost fields. -/
theorem claim_C10_witness :
    (evaluate_prompt (fun _ _ => none) "us-east-1" "t" "u" "hi"
        ⟨some "M", some "mid", some "amazon", some "heuristic", false, none⟩
        none false (some "run") (.ok ("ok", 5, 7)) 12).cost_usd_total = 0 ∧
    get_model_pricing ⟨some "M", some "mid", some "amazon", some "heuristic", false, none⟩ =
      (0, 0) := by
  constructor
  · exact ((claim_C10_pricing_defaults (fun _ _ => none) "us-east-1" "t" "u" "hi"
      ⟨some "M", some "mid", some "amazon", some "heuristic", false, none⟩
      none false (some "run") 12 ("ok", 5, 7)).2.2.2 rfl).2.2
  · exact (claim_C10_pricing_defaults (fun _ _ => none) "us-east-1" "t" "u" "hi"
      ⟨some "M", some "mid", some "amazon", some "heuristic", false, none⟩
      none false (some "run") 12 ("ok", 5, 7)).1 rfl

/-! ## Claim C1: evaluate_prompt never raises; failures are captured -/

/-- Claim C1: `evaluate_prompt` always returns a `MetricRecord` (the
embedding is a total function; the invocation outcome is the only fallible
step of the guarded try-block once configured values are well-typed).
When the invocation/validation/cost sequence raises (`invokeResult =
.error e`), the record has status "error", the causal message — rewritten
to the remediation text exactly when it matches the Anthropic access-error
pattern, per the handler of lines 184-202 — in its error field, zeroed
cost fields, and the step-1 estimated input tokens; on success the record
has status "success" and a null error. -/
theorem claim_C1_error_capture (tik : String → String → Option Nat)
    (region timestamp uuid prompt : String) (model : ModelConfig)
    (prompt_id : Option Int) (expected_json : Bool) (run_id : Option String)
    (elapsed_ms : ℚ) :
    (∀ e r, r = evaluate_prompt tik region timestamp uuid prompt model prompt_id
        expected_json run_id (.error e) elapsed_ms →
      r.status = "error" ∧
      r.error = some (enhanceAccessError region (model.bedrock_model_id.getD "unknown") e) ∧
      r.cost_usd_input = 0 ∧ r.cost_usd_output = 0 ∧ r.cost_usd_total = 0 ∧
      r.input_tokens = count_tokens tik (model.tokenizer.getD "heuristic") prompt ∧
      r.latency_ms = elapsed_ms) ∧
    (∀ v r, r = evaluate_prompt tik region timestamp uuid prompt model prompt_id
        expected_json run_id (.ok v) elapsed_ms →
      r.status = "success" ∧ r.error = none) := by
  constructor
  · intro e r hr
    subst hr
    refine ⟨?_, ?_, ?_, ?_, ?_, ?_, ?_⟩ <;> simp [evaluate_prompt]
  · rintro ⟨text, ot, itk⟩ r hr
    subst hr
    refine ⟨?_, ?_⟩ <;> simp [evaluate_prompt]

/-- Claim C1 witness: a failing invocation is captured as an error record;
a successful one yields a success record. -/
theorem claim_C1_witness :
    (evaluate_prompt (fun _ _ => none) "us-east-1" "t" "u" "hi"
        ⟨some "M", some "mid", some "amazon", some "heuristic", false, none⟩
        none false (some "run") (.error "boom") 7).status = "error" ∧
    (evaluate_prompt (fun _ _ => none) "us-east-1" "t" "u" "hi"
        ⟨some "M", some "mid", some "amazon", some "heuristic", false, none⟩
        none false (some "run") (.ok ("ok", 1, 1)) 7).status = "success" := by
  constructor
  · exact ((claim_C1_error_capture (fun _ _ => none) "us-east-1" "t" "u" "hi"
      ⟨some "M", some "mid", some "amazon", some "heuristic", false, none⟩
      none false (some "run") 7).1 "boom" _ rfl).1
  · exact ((claim_C1_error_capture (fun _ _ => none) "us-east-1" "t" "u" "hi"
      ⟨some "M", some "mid", some "amazon", some "heuristic", false, none⟩
      none false (some "run") 7).2 ("ok", 1, 1) _ rfl).1

/-! ## Claim C7: the identifier-variant lists are deduplicated, preserve
first-seen order, and are pure functions of descriptor and region -/

/-- Claim C7: the initial identifier-variant lists built by
`_invoke_converse` and `_invoke_model_direct` are deterministic — they are
pure functions of the canonical model id, the `use_inference_profile`
flag, the provider and the configured region, so two calls with equal
inputs agree definitionally — and before any attempt is issued they
contain no duplicate identifiers, are subsequences of the raw build order
(first-seen order preserved), and retain exactly the raw identifiers. -/
theorem claim_C7_variant_lists (model_id provider region : String)
    (use_inference_profile : Bool) :
    (converseVariants model_id use_inference_profile region).Nodup ∧
    List.Sublist (converseVariants model_id use_inference_profile region)
      (converseVariantsRaw model_id use_inference_profile region) ∧
    (∀ x, x ∈ converseVariants model_id use_inference_profile region ↔
      x ∈ converseVariantsRaw model_id use_inference_profile region) ∧
    (directVariants model_id provider use_inference_profile region).Nodup ∧
    List.Sublist (directVariants model_id provider use_inference_profile region)
      (directVariantsRaw model_id provider use_inference_profile region) ∧
    (∀ x, x ∈ directVariants model_id provider use_inference_profile region ↔
      x ∈ directVariantsRaw model_id provider use_inference_profile region) := by
  refine ⟨nodup_dedupKeepFirst _, dedupKeepFirst_sublist _, fun x => mem_dedupKeepFirst _ x,
    nodup_dedupKeepFirst _, dedupKeepFirst_sublist _, fun x => mem_dedupKeepFirst _ x⟩

/-- Claim C7 witness: the variant lists at a concrete descriptor and
region (us-east-2, unversioned Claude id) are duplicate-free and preserve
the raw membership. -/
theorem claim_C7_witness :
    (converseVariants "anthropic.claude-3-haiku:1" false "us-east-2").Nodup ∧
    ("us.anthropic.claude-3-haiku:1" ∈ converseVariants "anthropic.claude-3-haiku:1" false "us-east-2" ↔
      "us.anthropic.claude-3-haiku:1" ∈ converseVariantsRaw "anthropic.claude-3-haiku:1" false "us-east-2") := by
  exact ⟨(claim_C7_variant_lists "anthropic.claude-3-haiku:1" "anthropic" "us-east-2" false).1,
    (claim_C7_variant_lists "anthropic.claude-3-haiku:1" "anthropic" "us-east-2" false).2.2.1
      "us.anthropic.claude-3-haiku:1"⟩

/-! ## Claim C8: the direct-parse stage of the validator -/

/-- An empty string is not a JSON document. -/
theorem jsonParses_empty : jsonParses "" = false := rfl

/-- Claim C8 counterexample: the bare number "42" is not a structured
payload (object or array), yet the direct-parse stage reports it valid
with the trimmed text as the payload — the code calls `json.loads` with
no object/array shape check, contradicting the claim that scalars are not
reported valid at this step. -/
theorem claim_C8_counterexample :
    validate_json_with_cleaning "42" = (true, some "42") ∧
    (jsonLoads "42").map Json.isStructured = some false := by
  refine ⟨by decide, by rfl⟩

/-- Claim C8 (amended): the direct-parse stage returns
`(true, trimmed_text)` exactly when the trimmed text parses as *any* JSON
document — object, array, or bare scalar alike (the source performs no
structured-shape check); every trimmed text accepted here is also the
final result of the full validator. -/
theorem claim_C8_direct_parse (text : String) :
    (directParse text = some (true, some (pyStrip text)) ↔
      jsonParses (pyStrip text) = true) ∧
    (jsonParses (pyStrip text) = true →
      validate_json_with_cleaning text = (true, some (pyStrip text))) := by
  have hne : jsonParses (pyStrip text) = true → pyStrip text ≠ "" := by
    intro hp he
    rw [he] at hp
    exact absurd hp (by simp [jsonParses_empty])
  constructor
  · constructor
    · intro h
      by_cases h0 : pyStrip text = ""
      · simp [directParse, h0] at h
      · by_cases hp : jsonParses (pyStrip text) = true
        · exact hp
        · simp [directParse, h0, hp] at h
    · intro hp
      simp [directParse, hne hp, hp]
  · intro hp
    simp [validate_json_with_cleaning, directParse, hne hp, hp]

/-- Claim C8 witness: a structured trimmed text is accepted whole by the
direct-parse stage and by the full validator. -/
theorem claim_C8_witness :
    validate_json_with_cleaning " [1, 2] " = (true, some "[1, 2]") ∧
    (directParse " [1, 2] " = some (true, some (pyStrip " [1, 2] ")) ↔
      jsonParses (pyStrip " [1, 2] ") = true) := by
  constructor
  · have := (claim_C8_direct_parse " [1, 2] ").2 (by decide)
    simpa using this
  · exact (claim_C8_direct_parse " [1, 2] ").1

/-! ## Claim C2: the regex-fallback longest-match rule -/

/-- A result of the best-match fold is either the incoming best or a
parsing member of the candidate list. -/
theorem bestMatchAux_mem : ∀ (l : List String) (best : Option String) (blen : Nat) (c : String),
    bestMatchAux l best blen = some c →
    best = some c ∨ (c ∈ l ∧ jsonParses c = true) := by
  intro l
  induction l with
  | nil =>
    intro best blen c h
    exact Or.inl (by simpa [bestMatchAux] using h)
  | cons x rest ih =>
    intro best blen c h
    by_cases hx : jsonParses x = true ∧ x.length > blen
    · rw [bestMatchAux, if_pos hx] at h
      rcases ih _ _ _ h with h1 | h1
      · exact Or.inr ⟨by simp [Option.some_inj.mp h1], (Option.some_inj.mp h1) ▸ hx.1⟩
      · exact Or.inr ⟨List.mem_cons_of_mem _ h1.1, h1.2⟩
    · rw [bestMatchAux, if_neg hx] at h
      rcases ih _ _ _ h with h1 | h1
      · exact Or.inl h1
      · exact Or.inr ⟨List.mem_cons_of_mem _ h1.1, h1.2⟩

/-- The best-match fold result bounds the length of every parsing
candidate, provided the incoming best already dominates `blen`. -/
theorem bestMatchAux_bound : ∀ (l : List String) (best : Option String) (blen : Nat) (c : String),
    (∀ b, best = some b → blen ≤ b.length) →
    bestMatchAux l best blen = some c →
    blen ≤ c.length ∧ ∀ d ∈ l, jsonParses d = true → d.length ≤ c.length := by
  intro l
  induction l with
  | nil =>
    intro best blen c hb h
    refine ⟨hb c (by simpa [bestMatchAux] using h), by simp⟩
  | cons x rest ih =>
    intro best blen c hb h
    by_cases hx : jsonParses x = true ∧ x.length > blen
    · rw [bestMatchAux, if_pos hx] at h
      have := ih (some x) x.length c (fun b hbx => by simp [Option.some_inj.mp hbx]) h
      refine ⟨le_trans (le_of_lt hx.2) this.1, ?_⟩
      intro d hd hpd
      rcases List.mem_cons.mp hd with rfl | hd
      · exact this.1
      · exact this.2 d hd hpd
    · rw [bestMatchAux, if_neg hx] at h
      have hrec := ih best blen c hb h
      refine ⟨hrec.1, ?_⟩
      intro d hd hpd
      rcases List.mem_cons.mp hd with rfl | hd
      · have hnd : ¬ d.length > blen := fun hgt => hx ⟨hpd, hgt⟩
        exact le_trans (Nat.le_of_not_lt hnd) hrec.1
      · exact hrec.2 d hd hpd

/-- Claim C2 counterexample: the text `{x {"a":{"b":1},"c":2} y` contains
two syntactically valid bracketed JSON substrings of different lengths
(`{"a":{"b":1},"c":2}` and `{"b":1}`), the whole trimmed text does not
parse, there is no fenced code block, and no candidate of any extraction
stage parses — yet the validator returns `(false, none)` instead of
`(true, longer-substring)`: the nested longer substring is never produced
as a regex-fallback candidate, so the claim as stated is false. -/
theorem claim_C2_counterexample :
    validate_json_with_cleaning "\x7bx \x7b\x22a\x22:\x7b\x22b\x22:1\x7d,\x22c\x22:2\x7d y" =
      (false, none) ∧
    jsonParses "\x7b\x22a\x22:\x7b\x22b\x22:1\x7d,\x22c\x22:2\x7d" = true ∧
    jsonParses "\x7b\x22b\x22:1\x7d" = true ∧
    strContains "\x7bx \x7b\x22a\x22:\x7b\x22b\x22:1\x7d,\x22c\x22:2\x7d y"
      "\x7b\x22a\x22:\x7b\x22b\x22:1\x7d,\x22c\x22:2\x7d" = true ∧
    strContains "\x7bx \x7b\x22a\x22:\x7b\x22b\x22:1\x7d,\x22c\x22:2\x7d y"
      "\x7b\x22b\x22:1\x7d" = true ∧
    ("\x7b\x22a\x22:\x7b\x22b\x22:1\x7d,\x22c\x22:2\x7d" : String).length ≠
      ("\x7b\x22b\x22:1\x7d" : String).length ∧
    jsonParses (pyStrip "\x7bx \x7b\x22a\x22:\x7b\x22b\x22:1\x7d,\x22c\x22:2\x7d y") = false ∧
    jsonBlockExtract "\x7bx \x7b\x22a\x22:\x7b\x22b\x22:1\x7d,\x22c\x22:2\x7d y" = none := by
  refine ⟨by decide, by decide, by decide, by decide, by decide, by decide, by decide, by decide⟩

/-- Claim C2 (amended): when the direct parse, the fenced-block extraction
and the bracket-matching scan all fail and at least one regex-fallback
candidate parses, the validator returns `is_valid = true` with a longest
successfully-parsing regex candidate as the normalized payload — among
successfully parsed candidates the longest string wins; two valid
bracketed substrings are compared this way only when both occur among the
regex-fallback candidates (a valid substring nested inside a failing
longer span is never produced as a candidate, see the counterexample). -/
theorem claim_C2_longest_regex_candidate (text c : String)
    (h0 : pyStrip text ≠ "")
    (h1 : jsonParses (pyStrip text) = false)
    (h2 : jsonBlockExtract text = none)
    (h3 : bracketScan text = none)
    (h4 : regexFallback text = some c) :
    validate_json_with_cleaning text = (true, some c) ∧
    jsonParses c = true ∧
    c ∈ regexCandidates text ∧
    (∀ d ∈ regexCandidates text, jsonParses d = true → d.length ≤ c.length) ∧
    (∀ s1 s2, s1 ∈ regexCandidates text → s2 ∈ regexCandidates text →
      jsonParses s1 = true → jsonParses s2 = true → s1.length < s2.length → c ≠ s1) := by
  have hmem : c ∈ regexCandidates text ∧ jsonParses c = true := by
    rcases bestMatchAux_mem _ _ _ _ h4 with h | h
    · exact absurd h (by simp)
    · exact h
  have hbound := bestMatchAux_bound (regexCandidates text) none 0 c (by simp) h4
  refine ⟨?_, hmem.2, hmem.1, hbound.2, ?_⟩
  · simp [validate_json_with_cleaning, directParse, h0, h1, h2, h3, regexFallback] at h4 ⊢
    simp [h4]
  · intro s1 s2 hs1 hs2 hp1 hp2 hlt heq
    have h5 := hbound.2 s2 hs2 hp2
    rw [heq] at h5
    omega

/-- Claim C2 witness: on `{x} {"a":1} {"bb":22}` the earlier stages fail,
both valid bracketed substrings are regex candidates, and the longer one
(`{"bb":22}`) is returned. -/
theorem claim_C2_witness :
    validate_json_with_cleaning "\x7bx\x7d \x7b\x22a\x22:1\x7d \x7b\x22bb\x22:22\x7d" =
      (true, some "\x7b\x22bb\x22:22\x7d") ∧
    "\x7b\x22a\x22:1\x7d" ∈ regexCandidates "\x7bx\x7d \x7b\x22a\x22:1\x7d \x7b\x22bb\x22:22\x7d" ∧
    "\x7b\x22bb\x22:22\x7d" ∈ regexCandidates "\x7bx\x7d \x7b\x22a\x22:1\x7d \x7b\x22bb\x22:22\x7d" := by
  refine ⟨?_, by decide, by decide⟩
  exact (claim_C2_longest_regex_candidate
    "\x7bx\x7d \x7b\x22a\x22:1\x7d \x7b\x22bb\x22:22\x7d" "\x7b\x22bb\x22:22\x7d"
    (by decide) (by decide) (by decide) (by decide) (by decide)).1

/-! ## Claim C4: per-model aggregation -/

/-- A record whose only outcome is an error, for model "M". -/
def demoErrOnlyRecord : MetricRecord :=
  { timestamp := "t", run_id := "r", model_name := "M", model_id := "mid",
    prompt_id := none, input_prompt := "p", input_tokens := 3, output_tokens := 0,
    latency_ms := 0, json_valid := some false, error := some "boom", status := "error",
    cost_usd_input := 0, cost_usd_output := 0, cost_usd_total := 0,
    response := none, cleaned_response := none, original_response := none }

/-- A successful record for model "M". -/
def demoSuccessRecord : MetricRecord :=
  { timestamp := "t", run_id := "r", model_name := "M", model_id := "mid",
    prompt_id := some 1, input_prompt := "p", input_tokens := 3, output_tokens := 4,
    latency_ms := 100, json_valid := some true, error := none, status := "success",
    cost_usd_input := 0, cost_usd_output := 0, cost_usd_total := 0,
    response := some "ok", cleaned_response := none, original_response := none }

/-- Claim C4 counterexample: a collection holding only an error record for
model "M" produces an *empty* report — the model name appears in the
collection but gets no summary row at all (the success filter runs before
grouping), contradicting the claim that an error-only model still yields a
row of zeros. -/
theorem claim_C4_counterexample :
    demoErrOnlyRecord.status = "error" ∧
    demoErrOnlyRecord.model_name = "M" ∧
    generate_report [demoErrOnlyRecord] = [] := by
  refine ⟨rfl, rfl, by decide⟩

/-- Claim C4 (amended): aggregation produces one summary row per model
name appearing among the `status = success` records (duplicate-free);
each row's statistics are computed only over that model's success group
while its error count is taken over the whole collection; a model whose
records are all errors is omitted from the report rather than yielding a
zero row. -/
theorem claim_C4_aggregation (records : List MetricRecord) :
    (∀ m : String, (∃ row ∈ generate_report records, row.model_name = m) ↔
      (∃ r ∈ records, r.status = "success" ∧ r.model_name = m)) ∧
    ((generate_report records).map ModelSummary.model_name).Nodup ∧
    (∀ row ∈ generate_report records,
      row = mkSummary records row.model_name ∧
      row.error_count = ((records.filter
        (fun r => r.model_name = row.model_name && r.status = "error"))).length) := by
  have hid : (fun m => (mkSummary records m).model_name) = id := funext fun m => rfl
  have hmap : (generate_report records).map ModelSummary.model_name = reportModelNames records := by
    rw [generate_report, List.map_map]
    show (reportModelNames records).map (fun m => (mkSummary records m).model_name) = _
    rw [hid, List.map_id]
  have hnames : ∀ m : String, m ∈ reportModelNames records ↔
      ∃ r ∈ records, r.status = "success" ∧ r.model_name = m := by
    intro m
    rw [reportModelNames, mem_sortByLe, mem_dedupKeepFirst]
    constructor
    · intro h
      rcases List.mem_map.mp h with ⟨r, hr, hrm⟩
      rcases List.mem_filter.mp hr with ⟨hrr, hrs⟩
      exact ⟨r, hrr, by simpa using hrs, hrm⟩
    · rintro ⟨r, hr, hs, hm⟩
      exact List.mem_map.mpr ⟨r, List.mem_filter.mpr ⟨hr, by simpa using hs⟩, hm⟩
  refine ⟨?_, ?_, ?_⟩
  · intro m
    rw [show (∃ row ∈ generate_report records, row.model_name = m) ↔
        m ∈ (generate_report records).map ModelSummary.model_name from (List.mem_map).symm]
    rw [hmap]
    exact hnames m
  · rw [hmap]
    exact nodup_sortByLe _ _ (nodup_dedupKeepFirst _)
  · intro row hrow
    rcases List.mem_map.mp hrow with ⟨n, _, rfl⟩
    exact ⟨rfl, rfl⟩

unseal Rat.mul Rat.inv Rat.add Rat.sub in
/-- Claim C4 witness: for a collection with one success and one error
record of model "M", its (unique) report row counts the error record
separately. -/
theorem claim_C4_witness :
    (mkSummary [demoSuccessRecord, demoErrOnlyRecord] "M").error_count =
      (([demoSuccessRecord, demoErrOnlyRecord].filter
        (fun r => r.model_name = "M" && r.status = "error"))).length ∧
    (mkSummary [demoSuccessRecord, demoErrOnlyRecord] "M").error_count = 1 := by
  have hmem : mkSummary [demoSuccessRecord, demoErrOnlyRecord] "M" ∈
      generate_report [demoSuccessRecord, demoErrOnlyRecord] := by decide
  have h := (claim_C4_aggregation [demoSuccessRecord, demoErrOnlyRecord]).2.2 _ hmem
  exact ⟨h.2, by decide⟩

/-! ## Claim C6: a fatal entitlement error aborts the variant loop -/

/-- Loop invariant for the Converse retry loop: if no already-attempted
variant failed with an entitlement error, then any attempted variant that
does fail with one is the last attempt issued, and the loop's result is
the remediation error for exactly that variant. -/
theorem converseLoop_entitlement_aux (attempt : String → InvokeOutcome)
    (tik : String → String → Option Nat) (tokenizer_type region : String) :
    ∀ (fuel : Nat) (processed pending : List String) (lastErr : Option String),
      (∀ u ∈ processed, isEntitlementOutcome (attempt u) = false) →
      ∀ v ∈ (converseLoop attempt tik tokenizer_type region fuel processed pending lastErr).2,
        isEntitlementOutcome (attempt v) = true →
        (converseLoop attempt tik tokenizer_type region fuel processed pending lastErr).1 =
          .error (anthropicAccessMessage region v) ∧
        ∃ pre,
          (converseLoop attempt tik tokenizer_type region fuel processed pending lastErr).2 =
            pre ++ [v] ∧
          ∀ u ∈ pre, isEntitlementOutcome (attempt u) = false := by
  intro fuel
  induction fuel with
  | zero =>
    intro processed pending lastErr hproc v hv hent
    simp only [converseLoop] at hv
    exact absurd hent (by simp [hproc v hv])
  | succ fuel ih =>
    intro processed pending lastErr hproc v hv hent
    cases pending with
    | nil =>
      simp only [converseLoop] at hv
      exact absurd hent (by simp [hproc v hv])
    | cons v0 rest =>
      have hlast : ∀ (o : InvokeOutcome), attempt v0 = o → isEntitlementOutcome o = false →
          v ∈ processed ++ [v0] → False := by
        intro o hA ho hv
        rcases List.mem_append.mp hv with h | h
        · exact absurd hent (by simp [hproc v h])
        · have hvv : v = v0 := by simpa using h
          rw [hvv, hA] at hent
          rw [ho] at hent
          exact Bool.false_ne_true hent
      have hproc' : ∀ (o : InvokeOutcome), attempt v0 = o → isEntitlementOutcome o = false →
          ∀ u ∈ processed ++ [v0], isEntitlementOutcome (attempt u) = false := by
        intro o hA ho u hu
        rcases List.mem_append.mp hu with h | h
        · exact hproc u h
        · have huv : u = v0 := by simpa using h
          rw [huv, hA, ho]
      rcases hA : attempt v0 with ⟨text, inT, outT⟩ | ⟨code, msg⟩ | msg
      · simp only [converseLoop, hA] at hv ⊢
        exact absurd (hlast _ hA (by simp [isEntitlementOutcome]) hv) not_false
      · by_cases hc1 : code = "ResourceNotFoundException" ∧
            strContains (pyLower msg) "use case details"
        · simp only [converseLoop, hA, if_pos hc1] at hv ⊢
          rcases List.mem_append.mp hv with h | h
          · exact absurd hent (by simp [hproc v h])
          · have hvv : v = v0 := by simpa using h
            subst hvv
            exact ⟨rfl, processed, rfl, hproc⟩
        · have hefalse : isEntitlementOutcome (.clientError code msg) = false := by
            simp only [isEntitlementOutcome]
            rw [Bool.and_eq_false_iff]
            by_cases hcode : code = "ResourceNotFoundException"
            · exact Or.inr (by
                rcases hsc : strContains (pyLower msg) "use case details" with _ | _
                · rfl
                · exact absurd ⟨hcode, hsc⟩ hc1)
            · exact Or.inl (by simpa using hcode)
          by_cases hc2 : mentionsInferenceProfile msg = true
          · simp only [converseLoop, hA, if_neg hc1, hc2, if_true] at hv ⊢
            exact ih (processed ++ [v0]) _ _ (hproc' _ hA hefalse) v hv hent
          · by_cases hc3 : code ≠ "ValidationException"
            · simp only [converseLoop, hA, if_neg hc1, if_pos hc3] at hv ⊢
              rw [if_neg hc2] at hv ⊢
              exact absurd (hlast _ hA hefalse hv) not_false
            · simp only [converseLoop, hA, if_neg hc1] at hv ⊢
              rw [if_neg (by simpa using hc2), if_neg hc3] at hv ⊢
              exact ih (processed ++ [v0]) _ _ (hproc' _ hA hefalse) v hv hent
      · have hefalse : isEntitlementOutcome (.exn msg) = false := by
          simp [isEntitlementOutcome]
        by_cases hc2 : mentionsInferenceProfile msg = true
        · simp only [converseLoop, hA, hc2, if_true] at hv ⊢
          exact ih (processed ++ [v0]) _ _ (hproc' _ hA hefalse) v hv hent
        · by_cases hc3 : ¬ strContains msg "ValidationException" = true
          · simp only [converseLoop, hA] at hv ⊢
            rw [if_neg (by simpa using hc2), if_pos hc3] at hv ⊢
            exact absurd (hlast _ hA hefalse hv) not_false
          · simp only [converseLoop, hA] at hv ⊢
            rw [if_neg (by simpa using hc2), if_neg hc3] at hv ⊢
            exact ih (processed ++ [v0]) _ _ (hproc' _ hA hefalse) v hv hent

/-- Claim C6: within a single evaluation call, when an identifier-variant
attempt fails with an entitlement/access-class error (a
`ResourceNotFoundException` whose message mentions missing use case
details), the Converse retry loop aborts immediately with the remediation
message naming the exact console action for that variant, and that
variant is the last one for which any network attempt was issued — no
further attempt happens for any remaining variant. -/
theorem claim_C6_entitlement_aborts (attempt : String → InvokeOutcome)
    (tik : String → String → Option Nat) (tokenizer_type region : String)
    (fuel : Nat) (queue : List String) (v : String)
    (hv : v ∈ (converseLoop attempt tik tokenizer_type region fuel [] queue none).2)
    (hent : isEntitlementOutcome (attempt v) = true) :
    (converseLoop attempt tik tokenizer_type region fuel [] queue none).1 =
      .error (anthropicAccessMessage region v) ∧
    ∃ pre, (converseLoop attempt tik tokenizer_type region fuel [] queue none).2 = pre ++ [v] ∧
      ∀ u ∈ pre, isEntitlementOutcome (attempt u) = false :=
  converseLoop_entitlement_aux attempt tik tokenizer_type region fuel [] queue none
    (by simp) v hv hent

/-- A remote oracle raising an entitlement error for the first variant. -/
def c6Attempt : String → InvokeOutcome := fun v =>
  if v = "anthropic.claude-v9" then
    .clientError "ResourceNotFoundException"
      "Model use case details have not been submitted for this account"
  else .ok "hello" 1 2

/-- Claim C6 witness: with two queued variants whose first attempt fails
with the entitlement error, the loop result is the remediation error and
the trace shows exactly one network attempt. -/
theorem claim_C6_witness :
    (converseLoop c6Attempt (fun _ _ => none) "heuristic" "us-east-1" 6 []
      ["anthropic.claude-v9", "anthropic.claude-v9:0"] none).1 =
      .error (anthropicAccessMessage "us-east-1" "anthropic.claude-v9") ∧
    (converseLoop c6Attempt (fun _ _ => none) "heuristic" "us-east-1" 6 []
      ["anthropic.claude-v9", "anthropic.claude-v9:0"] none).2 = ["anthropic.claude-v9"] := by
  refine ⟨(claim_C6_entitlement_aborts c6Attempt (fun _ _ => none) "heuristic" "us-east-1" 6
    ["anthropic.claude-v9", "anthropic.claude-v9:0"] "anthropic.claude-v9"
    (by decide) (by decide)).1, by decide⟩
